import Mathlib

/-!
Onyx power HAL (`power/power.c`)

A shallow embedding of the power HAL module.  The two file-scope variables
`current_power_profile` and `current_power_hint` become an explicit state
record; every externally visible action (property store call, system call,
log line) becomes an `Event`, and every entry point returns the new state
together with the events it emitted, in program order.
-/

namespace PowerHal

/-! ## Constants defined in `power.c` -/

def PROFILE_POWER_SAVE : Int := 0
def PROFILE_BALANCED : Int := 1
def PROFILE_HIGH_PERFORMANCE : Int := 2

def POWER_PROFILE_PROPERTY : String := "sys.perf.profile"
def POWER_SAVE_PROP : String := "0"
def BALANCED_PROP : String := "1"
def HIGH_PERFORMANCE_PROP : String := "2"

/-- Constants that `power.c` takes from headers and build flags outside the
file: `hardware/power.h`, `hardware/hardware.h`, `errno.h`, and the optional
`-DTAP_TO_WAKE_NODE=...` compiler flag (`none` when the flag is absent). -/
structure Headers where
  POWER_HINT_LOW_POWER : Int
  POWER_FEATURE_DOUBLE_TAP_TO_WAKE : Int
  POWER_HARDWARE_MODULE_ID : String
  HARDWARE_MODULE_TAG : Int
  POWER_MODULE_API_VERSION_0_3 : Int
  HARDWARE_HAL_API_VERSION : Int
  EINVAL : Int
  ENOMEM : Int
  TAP_TO_WAKE_NODE : Option String

/-- The values these constants have in the Android 6 tree the module was
written for, with a tap-to-wake node configured. -/
def androidHeaders : Headers where
  POWER_HINT_LOW_POWER := 5
  POWER_FEATURE_DOUBLE_TAP_TO_WAKE := 1
  POWER_HARDWARE_MODULE_ID := "power"
  HARDWARE_MODULE_TAG := 0x48574D54
  POWER_MODULE_API_VERSION_0_3 := 3
  HARDWARE_HAL_API_VERSION := 0x100
  EINVAL := 22
  ENOMEM := 12
  TAP_TO_WAKE_NODE := some "/proc/touchpanel/double_tap_enable"

/-- The same tree built without `TAP_TO_WAKE_NODE`. -/
def androidHeadersNoNode : Headers :=
  { androidHeaders with TAP_TO_WAKE_NODE := none }

/-! ## State and observable events -/

/-- The two file-scope variables of `power.c`. -/
structure HalState where
  current_power_profile : Int
  current_power_hint : Int
deriving DecidableEq

/-- Load-time values of the file-scope variables (lines 37-38). -/
def initState : HalState :=
  { current_power_profile := PROFILE_BALANCED, current_power_hint := 0 }

/-- Externally visible actions.  `sys_open`, `sys_write` carry the value the
system call returned; `alog` carries the format string of the log line. -/
inductive Event where
  | sys_open (path : String) (ret : Int)
  | sys_write (fd : Int) (data : String) (ret : Int)
  | sys_close (fd : Int)
  | property_set (key value : String)
  | alog (fmt : String)
deriving DecidableEq

/-- The property store calls in a trace, as (key, value) pairs, in order. -/
def propWrites : List Event → List (String × String)
  | [] => []
  | Event.property_set k v :: es => (k, v) :: propWrites es
  | _ :: es => propWrites es

/-- The file-system system calls in a trace, in order. -/
def fsAccesses : List Event → List Event
  | [] => []
  | Event.sys_open p r :: es => Event.sys_open p r :: fsAccesses es
  | Event.sys_write f d r :: es => Event.sys_write f d r :: fsAccesses es
  | Event.sys_close f :: es => Event.sys_close f :: fsAccesses es
  | _ :: es => fsAccesses es

/-! ## `sysfs_write` (lines 40-61) -/

/-- `sysfs_write(path, s)`.  `openRet` is what `open(path, O_WRONLY)` returns
and `writeRet` what `write(fd, s, strlen(s))` returns (on the 32-bit target
`ssize_t` and `int` coincide).  Result: return value and emitted events. -/
def sysfs_write (path s : String) (openRet writeRet : Int) : Int × List Event :=
  let fd := openRet
  if fd < 0 then
    (-1, [Event.sys_open path fd, Event.alog "Error opening %s: %s"])
  else
    let len := writeRet
    if len < 0 then
      (-1, [Event.sys_open path fd, Event.sys_write fd s len,
            Event.alog "Error writing to %s: %s"])
    else
      (0, [Event.sys_open path fd, Event.sys_write fd s len, Event.sys_close fd])

/-! ## `power_init`, `power_set_interactive` (lines 63-71) -/

def power_init (st : HalState) : HalState × List Event :=
  (st, [Event.alog "%s"])

def power_set_interactive (st : HalState) (_on : Int) : HalState × List Event :=
  (st, [])

/-! ## `set_power_profile` (lines 73-92) -/

def set_power_profile (st : HalState) (profile : Int) : HalState × List Event :=
  if profile = st.current_power_profile then
    (st, [])
  else
    let evs : List Event :=
      if profile = PROFILE_POWER_SAVE then
        [Event.property_set POWER_PROFILE_PROPERTY POWER_SAVE_PROP]
      else if profile = PROFILE_BALANCED then
        [Event.property_set POWER_PROFILE_PROPERTY BALANCED_PROP]
      else if profile = PROFILE_HIGH_PERFORMANCE then
        [Event.property_set POWER_PROFILE_PROPERTY HIGH_PERFORMANCE_PROP]
      else []
    ({ st with current_power_profile := profile }, evs)

/-! ## `power_hint` (lines 94-112) -/

def power_hint (H : Headers) (st : HalState) (hint : Int) : HalState × List Event :=
  if hint = st.current_power_hint then
    (st, [])
  else
    let r : HalState × List Event :=
      if hint = H.POWER_HINT_LOW_POWER then
        set_power_profile st PROFILE_POWER_SAVE
      else if st.current_power_hint = H.POWER_HINT_LOW_POWER then
        set_power_profile st PROFILE_BALANCED
      else (st, [])
    ({ r.1 with current_power_hint := hint }, r.2)

/-! ## `set_feature` (lines 114-125) -/

/-- `snprintf(buf, size, "%d", v)`: the decimal rendering of `v`, cut to the
`size - 1` bytes that fit before the terminating NUL. -/
def snprintf_d (size : Nat) (v : Int) : String :=
  String.mk ((toString v).data.take (size - 1))

/-- `set_feature(module, feature, state)`.  `openRet`, `writeRet` are the
outcomes of the system calls made by `sysfs_write`, should it be called. -/
def set_feature (H : Headers) (st : HalState) (feature state : Int)
    (openRet writeRet : Int) : HalState × List Event :=
  match H.TAP_TO_WAKE_NODE with
  | none => (st, [])
  | some node =>
    if feature = H.POWER_FEATURE_DOUBLE_TAP_TO_WAKE then
      let tmp_str := snprintf_d 64 state
      (st, (sysfs_write node tmp_str openRet writeRet).2)
    else
      (st, [])

/-! ## `power_open` (lines 127-158) -/

/-- The functions of `power.c` a callback slot can point to; `null` is the
zero pointer. -/
inductive Callback where
  | null
  | power_init
  | power_set_interactive
  | power_hint
  | set_feature
deriving DecidableEq

/-- The values of a `struct hw_module_methods_t *` slot. -/
inductive MethodsPtr where
  | null
  | power_module_methods
deriving DecidableEq

/-- Modelled from the spec: the common module header `hw_module_t` is declared
in `hardware/hardware.h`, which is not part of the sources.  Its members are
those the initialiser in power.c names (tag, the two version tags, id, name,
author, methods) and the remaining storage of the header (`dso`, `reserved`).
A `none` string and a 0 `dso` are null pointers. -/
structure hw_module_t where
  tag : Int
  module_api_version : Int
  hal_api_version : Int
  id : Option String
  name : Option String
  author : Option String
  methods : MethodsPtr
  dso : Int
  reserved : List Int
deriving DecidableEq

/-- Modelled from the spec: the device handle type `power_module_t` is declared
in `hardware/power.h`, which is not part of the sources.  Its members are the
common header and the four callback slots the module populates. -/
structure power_module_t where
  common : hw_module_t
  init : Callback
  setInteractive : Callback
  powerHint : Callback
  setFeature : Callback
deriving DecidableEq

/-- A zero-filled `power_module_t`, as `calloc` hands out. -/
def zeroed_power_module_t : power_module_t :=
  { common :=
      { tag := 0, module_api_version := 0, hal_api_version := 0, id := none, name := none,
        author := none, methods := MethodsPtr.null, dso := 0,
        reserved := List.replicate 25 0 },
    init := Callback.null, setInteractive := Callback.null, powerHint := Callback.null,
    setFeature := Callback.null }

/-- `calloc(1, sizeof(power_module_t))`: a zero-filled record, or the null
pointer when the allocation fails. -/
def calloc_power_module_t (succeeds : Bool) : Option power_module_t :=
  if succeeds then some zeroed_power_module_t else none

/-- `strcmp` on C strings: 0 exactly when the two strings are equal. -/
def strcmp (a b : String) : Int :=
  if a = b then 0 else if a < b then -1 else 1

/-- `power_open(module, name, device)`.  `device` is the content of the
caller's output slot `*device` before the call; the result is the return
value, the content of the slot afterwards, and the emitted events. -/
def power_open (H : Headers) (name : String) (callocSucceeds : Bool)
    (device : Option power_module_t) : Int × Option power_module_t × List Event :=
  if strcmp name H.POWER_HARDWARE_MODULE_ID ≠ 0 then
    (-H.EINVAL, device, [Event.alog "%s: enter; name=%s"])
  else
    match calloc_power_module_t callocSucceeds with
    | none =>
      (-H.ENOMEM, device,
        [Event.alog "%s: enter; name=%s", Event.alog "%s: failed to allocate memory"])
    | some dev =>
      let dev := { dev with common := { dev.common with tag := H.HARDWARE_MODULE_TAG } }
      let dev := { dev with common :=
        { dev.common with module_api_version := H.POWER_MODULE_API_VERSION_0_3 } }
      let dev := { dev with common :=
        { dev.common with hal_api_version := H.HARDWARE_HAL_API_VERSION } }
      let dev := { dev with init := Callback.power_init }
      let dev := { dev with powerHint := Callback.power_hint }
      let dev := { dev with setInteractive := Callback.power_set_interactive }
      let dev := { dev with setFeature := Callback.set_feature }
      (0, some dev, [Event.alog "%s: enter; name=%s", Event.alog "%s: exit"])

/-! ## Sequences of entry-point calls -/

/-- One call into the module through its callback table. -/
inductive Call where
  | init
  | setInteractive (isOn : Int)
  | powerHint (hint : Int)
  | setFeature (feature state : Int) (openRet writeRet : Int)
deriving DecidableEq

def step (H : Headers) (st : HalState) : Call → HalState × List Event
  | Call.init => power_init st
  | Call.setInteractive isOn => power_set_interactive st isOn
  | Call.powerHint h => power_hint H st h
  | Call.setFeature f s o w => set_feature H st f s o w

/-- Run a sequence of calls, concatenating the emitted events. -/
def exec (H : Headers) (st : HalState) : List Call → HalState × List Event
  | [] => (st, [])
  | c :: cs =>
    let r := step H st c
    let r2 := exec H r.1 cs
    (r2.1, r.2 ++ r2.2)

/-- Run a sequence of `power_hint` calls. -/
def execHints (H : Headers) (st : HalState) (hs : List Int) : HalState × List Event :=
  exec H st (hs.map Call.powerHint)

/-- Reference behaviour of profile selection, written from the specification
text: nothing happens when the requested profile is already current;
otherwise one property write of the profile's string, then the current
profile becomes the requested one and the last hint is kept. -/
def set_power_profile_ref (st : HalState) (p : Int) : HalState × List Event :=
  if p = st.current_power_profile then
    (st, [])
  else
    ({ current_power_profile := p, current_power_hint := st.current_power_hint },
     [Event.property_set "sys.perf.profile"
        (if p = 0 then "0" else if p = 1 then "1" else "2")])

/-- The property writes a hint sequence must produce, written from the
specification text: position by position, with `prev` the preceding hint, a
write of "0" where the hint is LowPower and `prev` is not, a write of "1"
where the hint is not LowPower and `prev` is, nothing elsewhere. -/
def hintWritesSpec (lowPower : Int) : Int → List Int → List (String × String)
  | _, [] => []
  | prev, h :: hs =>
    (if h = lowPower ∧ prev ≠ lowPower then [("sys.perf.profile", "0")]
     else if h ≠ lowPower ∧ prev = lowPower then [("sys.perf.profile", "1")]
     else [])
    ++ hintWritesSpec lowPower h hs

/-- The profile is PowerSave exactly when the last hint is LowPower, and is
PowerSave or Balanced. -/
def Consistent (H : Headers) (st : HalState) : Prop :=
  (st.current_power_profile = PROFILE_POWER_SAVE
      ↔ st.current_power_hint = H.POWER_HINT_LOW_POWER)
  ∧ (st.current_power_profile = PROFILE_POWER_SAVE
      ∨ st.current_power_profile = PROFILE_BALANCED)

/-- The profile is PowerSave or Balanced. -/
def Bounded (st : HalState) : Prop :=
  st.current_power_profile = PROFILE_POWER_SAVE
    ∨ st.current_power_profile = PROFILE_BALANCED

/-- The event is not a property write of the HighPerformance string. -/
def NotHighPerfWrite (e : Event) : Prop :=
  ∀ k : String, e ≠ Event.property_set k HIGH_PERFORMANCE_PROP

/-! ## Auxiliary lemmas -/

lemma power_hint_records (H : Headers) (st : HalState) (h : Int) :
    (power_hint H st h).1.current_power_hint = h := by
  by_cases e : h = st.current_power_hint
  · simp [power_hint, e]
  · simp [power_hint, e]

lemma power_hint_same (H : Headers) (st : HalState) :
    power_hint H st st.current_power_hint = (st, []) := by
  simp [power_hint]

lemma propWrites_append (xs ys : List Event) :
    propWrites (xs ++ ys) = propWrites xs ++ propWrites ys := by
  induction xs with
  | nil => rfl
  | cons x xs ih => cases x <;> simp [propWrites, ih]

lemma consistent_init (H : Headers) (h0 : H.POWER_HINT_LOW_POWER ≠ 0) :
    Consistent H initState := by
  constructor
  · constructor
    · intro h; exact absurd h (by decide)
    · intro h; exact absurd h.symm h0
  · right; rfl

/-- In a consistent state `power_hint` keeps consistency and emits exactly
the write the hint pair calls for. -/
lemma power_hint_consistent (H : Headers) (st : HalState) (h : Int)
    (hc : Consistent H st) :
    Consistent H (power_hint H st h).1
    ∧ (power_hint H st h).2
        = if h = H.POWER_HINT_LOW_POWER ∧ st.current_power_hint ≠ H.POWER_HINT_LOW_POWER
          then [Event.property_set "sys.perf.profile" "0"]
          else if h ≠ H.POWER_HINT_LOW_POWER
                ∧ st.current_power_hint = H.POWER_HINT_LOW_POWER
          then [Event.property_set "sys.perf.profile" "1"]
          else [] := by
  obtain ⟨p, c⟩ := st
  obtain ⟨hiff, hor⟩ := hc
  simp only [PROFILE_POWER_SAVE, PROFILE_BALANCED] at hiff hor
  by_cases e : h = c
  · subst e
    refine ⟨by simpa [power_hint, Consistent, PROFILE_POWER_SAVE, PROFILE_BALANCED]
      using ⟨hiff, hor⟩, ?_⟩
    by_cases e2 : h = H.POWER_HINT_LOW_POWER <;> simp [power_hint, e2]
  · by_cases e2 : h = H.POWER_HINT_LOW_POWER
    · have hc2 : c ≠ H.POWER_HINT_LOW_POWER := fun e3 => e (e2.trans e3.symm)
      subst e2
      have hp : p = 1 := by
        rcases hor with h0 | h1
        · exact absurd (hiff.mp h0) hc2
        · exact h1
      subst hp
      simp [power_hint, set_power_profile, Consistent, e, hc2, PROFILE_POWER_SAVE,
        PROFILE_BALANCED, POWER_PROFILE_PROPERTY, POWER_SAVE_PROP]
    · by_cases e3 : c = H.POWER_HINT_LOW_POWER
      · have hp : p = 0 := hiff.mpr e3
        subst hp
        simp [power_hint, set_power_profile, Consistent, e, e2, e3, PROFILE_POWER_SAVE,
          PROFILE_BALANCED, POWER_PROFILE_PROPERTY, BALANCED_PROP]
      · have hp : p = 1 := by
          rcases hor with h0 | h1
          · exact absurd (hiff.mp h0) e3
          · exact h1
        subst hp
        simp [power_hint, Consistent, e, e2, e3, PROFILE_POWER_SAVE, PROFILE_BALANCED]

lemma set_feature_state (H : Headers) (st : HalState) (f s o w : Int) :
    (set_feature H st f s o w).1 = st := by
  unfold set_feature
  split
  · rfl
  · split <;> rfl

lemma step_consistent (H : Headers) (st : HalState) (c : Call) (hc : Consistent H st) :
    Consistent H (step H st c).1 := by
  cases c with
  | init => simpa [step, power_init] using hc
  | setInteractive b => simpa [step, power_set_interactive] using hc
  | powerHint h => exact (power_hint_consistent H st h hc).1
  | setFeature f s o w =>
    show Consistent H (set_feature H st f s o w).1
    rw [set_feature_state]
    exact hc

lemma exec_consistent (H : Headers) (cs : List Call) :
    ∀ st : HalState, Consistent H st → Consistent H (exec H st cs).1 := by
  induction cs with
  | nil => intro st hc; exact hc
  | cons c cs ih => intro st hc; exact ih _ (step_consistent H st c hc)

lemma execHints_cons (H : Headers) (st : HalState) (h : Int) (hs : List Int) :
    execHints H st (h :: hs)
      = ((execHints H (power_hint H st h).1 hs).1,
         (power_hint H st h).2 ++ (execHints H (power_hint H st h).1 hs).2) := rfl

lemma execHints_last (H : Headers) (hs : List Int) :
    ∀ st : HalState,
      (execHints H st hs).1.current_power_hint = hs.getLast?.getD st.current_power_hint := by
  induction hs with
  | nil => intro st; rfl
  | cons h hs ih =>
    intro st
    rw [execHints_cons]
    simp only [ih, power_hint_records]
    cases hs with
    | nil => rfl
    | cons a t =>
      rw [List.getLast?_cons_cons, List.getLast?_eq_getLast _ (List.cons_ne_nil a t)]
      rfl

lemma execHints_events (H : Headers) (hs : List Int) :
    ∀ st : HalState, Consistent H st →
      (execHints H st hs).2
        = (hintWritesSpec H.POWER_HINT_LOW_POWER st.current_power_hint hs).map
            (fun kv => Event.property_set kv.1 kv.2) := by
  induction hs with
  | nil => intro st _; rfl
  | cons h hs ih =>
    intro st hc
    have hstep := power_hint_consistent H st h hc
    rw [execHints_cons]
    simp only [ih _ hstep.1, power_hint_records, hstep.2, hintWritesSpec, List.map_append]
    congr 1
    split_ifs <;> rfl

lemma propWrites_map (kvs : List (String × String)) :
    propWrites (kvs.map (fun kv => Event.property_set kv.1 kv.2)) = kvs := by
  induction kvs with
  | nil => rfl
  | cons kv kvs ih => simp [propWrites, ih]

lemma power_hint_bounded (H : Headers) (st : HalState) (h : Int) (hb : Bounded st) :
    Bounded (power_hint H st h).1 ∧ ∀ e ∈ (power_hint H st h).2, NotHighPerfWrite e := by
  obtain ⟨p, c⟩ := st
  have hb2 : p = 0 ∨ p = 1 := hb
  unfold power_hint set_power_profile
  simp only [PROFILE_POWER_SAVE, PROFILE_BALANCED, PROFILE_HIGH_PERFORMANCE,
    POWER_PROFILE_PROPERTY, POWER_SAVE_PROP, BALANCED_PROP, HIGH_PERFORMANCE_PROP,
    Bounded, NotHighPerfWrite]
  rcases hb2 with rfl | rfl <;> split_ifs <;> simp

lemma sysfs_write_events (path s : String) (o w : Int) :
    ∀ e ∈ (sysfs_write path s o w).2, ∀ k v : String, e ≠ Event.property_set k v := by
  simp only [sysfs_write]
  split_ifs <;> simp

lemma set_feature_events (H : Headers) (st : HalState) (f s o w : Int) :
    ∀ e ∈ (set_feature H st f s o w).2, ∀ k v : String, e ≠ Event.property_set k v := by
  unfold set_feature
  split
  · simp
  · split
    · exact sysfs_write_events _ _ _ _
    · simp

lemma step_bounded (H : Headers) (st : HalState) (c : Call) (hb : Bounded st) :
    Bounded (step H st c).1 ∧ ∀ e ∈ (step H st c).2, NotHighPerfWrite e := by
  cases c with
  | init =>
    refine ⟨hb, ?_⟩
    intro e he k
    simp only [step, power_init, List.mem_singleton] at he
    subst he
    simp
  | setInteractive b =>
    refine ⟨hb, ?_⟩
    intro e he
    simp [step, power_set_interactive] at he
  | powerHint h => exact power_hint_bounded H st h hb
  | setFeature f s o w =>
    refine ⟨?_, ?_⟩
    · show Bounded (set_feature H st f s o w).1
      rw [set_feature_state]
      exact hb
    · intro e he k
      exact set_feature_events H st f s o w e he k _

lemma exec_bounded (H : Headers) (cs : List Call) :
    ∀ st : HalState, Bounded st →
      Bounded (exec H st cs).1 ∧ ∀ e ∈ (exec H st cs).2, NotHighPerfWrite e := by
  induction cs with
  | nil =>
    intro st hb
    exact ⟨hb, fun e he => by simp [exec] at he⟩
  | cons c cs ih =>
    intro st hb
    have h1 := step_bounded H st c hb
    have h2 := ih _ h1.1
    refine ⟨h2.1, ?_⟩
    intro e he
    simp only [exec, List.mem_append] at he
    rcases he with he | he
    · exact h1.2 e he
    · exact h2.2 e he

lemma mem_propWrites (es : List Event) (k v : String) :
    (k, v) ∈ propWrites es ↔ Event.property_set k v ∈ es := by
  induction es with
  | nil => simp [propWrites]
  | cons e es ih => cases e <;> simp [propWrites, ih]

lemma toString_int_length (s : Int) (h1 : -2 ^ 31 ≤ s) (h2 : s < 2 ^ 31) :
    (toString s).data.length ≤ 11 := by
  cases s with
  | ofNat m =>
    have hm : m < 10 ^ 10 := by
      have : (m : Int) < 2 ^ 31 := h2
      norm_num at this ⊢
      omega
    exact le_trans (Nat.repr_length m 10 (by decide) hm) (by decide)
  | negSucc m =>
    have hm : m + 1 < 10 ^ 10 := by
      have : -2 ^ 31 ≤ Int.negSucc m := h1
      rw [Int.negSucc_eq] at this
      norm_num at this ⊢
      omega
    have hl := Nat.repr_length (m + 1) 10 (by decide) hm
    show ("-" ++ Nat.repr (m + 1)).length ≤ 11
    rw [String.length_append]
    have : "-".length = 1 := rfl
    omega

lemma snprintf_d_fits (s : Int) (h1 : -2 ^ 31 ≤ s) (h2 : s < 2 ^ 31) :
    snprintf_d 64 s = toString s := by
  have hl := toString_int_length s h1 h2
  unfold snprintf_d
  rw [List.take_of_length_le (by omega)]

/-! ## Theorems -/

/-- C5: for every state and every requested profile among 0 (PowerSave),
1 (Balanced), 2 (HighPerformance), `set_power_profile` coincides with the
reference: no event and an unchanged state when the profile is already
current; otherwise exactly one event, the property write of "0", "1" or "2"
to "sys.perf.profile", the current profile becomes the requested one and
the last hint is unchanged. -/
theorem set_power_profile_refines (st : HalState) (p : Int)
    (hp : p = 0 ∨ p = 1 ∨ p = 2) :
    set_power_profile st p = set_power_profile_ref st p
    ∧ (p = st.current_power_profile → set_power_profile st p = (st, []))
    ∧ (p ≠ st.current_power_profile →
        (set_power_profile st p).2
          = [Event.property_set "sys.perf.profile"
              (if p = 0 then "0" else if p = 1 then "1" else "2")]
        ∧ (set_power_profile st p).1.current_power_profile = p
        ∧ (set_power_profile st p).1.current_power_hint = st.current_power_hint) := by
  rcases hp with rfl | rfl | rfl <;>
    simp [set_power_profile, set_power_profile_ref, PROFILE_POWER_SAVE, PROFILE_BALANCED,
      PROFILE_HIGH_PERFORMANCE, POWER_PROFILE_PROPERTY, POWER_SAVE_PROP, BALANCED_PROP,
      HIGH_PERFORMANCE_PROP] <;>
    intro h <;> simp [h]

theorem set_power_profile_refines_witness :
    set_power_profile ⟨1, 0⟩ 2 = set_power_profile_ref ⟨1, 0⟩ 2
    ∧ ((2 : Int) = (⟨1, 0⟩ : HalState).current_power_profile →
        set_power_profile ⟨1, 0⟩ 2 = (⟨1, 0⟩, []))
    ∧ ((2 : Int) ≠ (⟨1, 0⟩ : HalState).current_power_profile →
        (set_power_profile ⟨1, 0⟩ 2).2
          = [Event.property_set "sys.perf.profile"
              (if (2 : Int) = 0 then "0" else if (2 : Int) = 1 then "1" else "2")]
        ∧ (set_power_profile ⟨1, 0⟩ 2).1.current_power_profile = 2
        ∧ (set_power_profile ⟨1, 0⟩ 2).1.current_power_hint
            = (⟨1, 0⟩ : HalState).current_power_hint) :=
  set_power_profile_refines ⟨1, 0⟩ 2 (by decide)

/-- C9: single-step behaviour of `power_hint` in any state (p, c) and for any
hint h.  The last hint afterwards is h.  When h differs from c: (1) if h is
LowPower the profile becomes PowerSave, with exactly the write of "0" when p
was not PowerSave and no write when it was; (2) if h is not LowPower and c is,
the profile becomes Balanced, with exactly the write of "1" when p was not
Balanced and no write when it was; (3) if neither is LowPower there is no
write and the profile stays p. -/
theorem power_hint_step_spec (H : Headers) (p c h : Int) :
    (power_hint H ⟨p, c⟩ h).1.current_power_hint = h
    ∧ (h ≠ c →
        (h = H.POWER_HINT_LOW_POWER →
          (power_hint H ⟨p, c⟩ h).1.current_power_profile = PROFILE_POWER_SAVE
          ∧ (p ≠ PROFILE_POWER_SAVE →
              (power_hint H ⟨p, c⟩ h).2 = [Event.property_set "sys.perf.profile" "0"])
          ∧ (p = PROFILE_POWER_SAVE → (power_hint H ⟨p, c⟩ h).2 = []))
        ∧ (h ≠ H.POWER_HINT_LOW_POWER → c = H.POWER_HINT_LOW_POWER →
          (power_hint H ⟨p, c⟩ h).1.current_power_profile = PROFILE_BALANCED
          ∧ (p ≠ PROFILE_BALANCED →
              (power_hint H ⟨p, c⟩ h).2 = [Event.property_set "sys.perf.profile" "1"])
          ∧ (p = PROFILE_BALANCED → (power_hint H ⟨p, c⟩ h).2 = []))
        ∧ (h ≠ H.POWER_HINT_LOW_POWER → c ≠ H.POWER_HINT_LOW_POWER →
          (power_hint H ⟨p, c⟩ h).2 = []
          ∧ (power_hint H ⟨p, c⟩ h).1.current_power_profile = p)) := by
  refine ⟨?_, fun hne => ⟨fun hlp => ?_, fun hlp hc => ?_, fun hlp hc => ?_⟩⟩
  · by_cases e : h = c
    · simp [power_hint, e]
    · simp [power_hint, e]
  · refine ⟨?_, fun hp => ?_, fun hp => ?_⟩
    · by_cases e : PROFILE_POWER_SAVE = p
      · simp [power_hint, set_power_profile, hne, ← hlp, e]
      · simp [power_hint, set_power_profile, hne, ← hlp, e]
    · have e : ¬ PROFILE_POWER_SAVE = p := fun e => hp e.symm
      simp [power_hint, set_power_profile, hne, ← hlp, e, POWER_PROFILE_PROPERTY,
        POWER_SAVE_PROP]
    · simp [power_hint, set_power_profile, hne, ← hlp, hp]
  · refine ⟨?_, fun hp => ?_, fun hp => ?_⟩
    · by_cases e : PROFILE_BALANCED = p
      · simp [power_hint, set_power_profile, hne, hlp, hc, e]
      · simp [power_hint, set_power_profile, hne, hlp, hc, e]
    · have e : ¬ (1 : Int) = p := fun e => hp e.symm
      simp [power_hint, set_power_profile, hne, hlp, hc, e, POWER_PROFILE_PROPERTY,
        BALANCED_PROP, PROFILE_BALANCED, PROFILE_POWER_SAVE]
    · simp [power_hint, set_power_profile, hne, hlp, hc, hp]
  · simp [power_hint, hne, hlp, hc]

theorem power_hint_step_spec_witness :
    (power_hint androidHeaders ⟨1, 0⟩ 5).1.current_power_hint = 5
    ∧ (power_hint androidHeaders ⟨1, 0⟩ 5).1.current_power_profile = PROFILE_POWER_SAVE
    ∧ (power_hint androidHeaders ⟨1, 0⟩ 5).2 = [Event.property_set "sys.perf.profile" "0"] :=
  ⟨(power_hint_step_spec androidHeaders 1 0 5).1,
   (((power_hint_step_spec androidHeaders 1 0 5).2 (by decide)).1 rfl).1,
   (((power_hint_step_spec androidHeaders 1 0 5).2 (by decide)).1 rfl).2.1 (by decide)⟩

/-- C1: from the load-time state, with the LowPower constant different from
0, after any finite sequence of `power_hint` calls the profile is PowerSave
if and only if the sequence is non-empty and its last hint is LowPower, and
is Balanced in every other case; the reached state satisfies
(profile = PowerSave iff last hint = LowPower) and the profile is PowerSave or
Balanced; the recorded last hint is the last hint of the sequence (0 for the
empty sequence). -/
theorem profile_tracks_last_hint (H : Headers) (h0 : H.POWER_HINT_LOW_POWER ≠ 0)
    (hs : List Int) :
    ((execHints H initState hs).1.current_power_profile = PROFILE_POWER_SAVE
        ↔ hs ≠ [] ∧ hs.getLast? = some H.POWER_HINT_LOW_POWER)
    ∧ (¬ (hs ≠ [] ∧ hs.getLast? = some H.POWER_HINT_LOW_POWER) →
        (execHints H initState hs).1.current_power_profile = PROFILE_BALANCED)
    ∧ ((execHints H initState hs).1.current_power_profile = PROFILE_POWER_SAVE
        ↔ (execHints H initState hs).1.current_power_hint = H.POWER_HINT_LOW_POWER)
    ∧ ((execHints H initState hs).1.current_power_profile = PROFILE_POWER_SAVE
        ∨ (execHints H initState hs).1.current_power_profile = PROFILE_BALANCED)
    ∧ (execHints H initState hs).1.current_power_hint = hs.getLast?.getD 0 := by
  have hc : Consistent H (execHints H initState hs).1 :=
    exec_consistent H _ _ (consistent_init H h0)
  have hl : (execHints H initState hs).1.current_power_hint = hs.getLast?.getD 0 :=
    execHints_last H hs initState
  have key : (execHints H initState hs).1.current_power_profile = PROFILE_POWER_SAVE
      ↔ hs ≠ [] ∧ hs.getLast? = some H.POWER_HINT_LOW_POWER := by
    rw [hc.1, hl]
    cases hs with
    | nil =>
      simp only [List.getLast?_nil, Option.getD_none, ne_eq, not_true_eq_false, false_and,
        iff_false]
      exact fun e => h0 e.symm
    | cons a t =>
      rw [List.getLast?_eq_getLast _ (List.cons_ne_nil a t)]
      simp
  refine ⟨key, ?_, hc.1, hc.2, hl⟩
  intro hn
  rcases hc.2 with h1 | h1
  · exact absurd (key.mp h1) hn
  · exact h1

theorem profile_tracks_last_hint_witness :
    ((execHints androidHeaders initState [7, 5]).1.current_power_profile = PROFILE_POWER_SAVE
        ↔ ([7, 5] : List Int) ≠ []
          ∧ ([7, 5] : List Int).getLast? = some androidHeaders.POWER_HINT_LOW_POWER)
    ∧ (¬ (([7, 5] : List Int) ≠ []
          ∧ ([7, 5] : List Int).getLast? = some androidHeaders.POWER_HINT_LOW_POWER) →
        (execHints androidHeaders initState [7, 5]).1.current_power_profile = PROFILE_BALANCED)
    ∧ ((execHints androidHeaders initState [7, 5]).1.current_power_profile = PROFILE_POWER_SAVE
        ↔ (execHints androidHeaders initState [7, 5]).1.current_power_hint
            = androidHeaders.POWER_HINT_LOW_POWER)
    ∧ ((execHints androidHeaders initState [7, 5]).1.current_power_profile = PROFILE_POWER_SAVE
        ∨ (execHints androidHeaders initState [7, 5]).1.current_power_profile
            = PROFILE_BALANCED)
    ∧ (execHints androidHeaders initState [7, 5]).1.current_power_hint
        = ([7, 5] : List Int).getLast?.getD 0 :=
  profile_tracks_last_hint androidHeaders (by decide) [7, 5]

/-- C2: from the load-time state, with the LowPower constant different from
0, the events emitted by any finite sequence of `power_hint` calls are exactly
the property writes of `hintWritesSpec`: "0" to "sys.perf.profile" where the
hint is LowPower and the preceding hint (0 before the first call) is not, "1"
where the hint is not LowPower and the preceding one is, nothing elsewhere.
In particular LowPower, LowPower, other yields the two writes "0" then "1". -/
theorem hint_sequence_writes (H : Headers) (h0 : H.POWER_HINT_LOW_POWER ≠ 0)
    (hs : List Int) :
    propWrites (execHints H initState hs).2 = hintWritesSpec H.POWER_HINT_LOW_POWER 0 hs
    ∧ (execHints H initState hs).2
        = (hintWritesSpec H.POWER_HINT_LOW_POWER 0 hs).map
            (fun kv => Event.property_set kv.1 kv.2)
    ∧ (∀ other : Int, other ≠ H.POWER_HINT_LOW_POWER →
        propWrites (execHints H initState
            [H.POWER_HINT_LOW_POWER, H.POWER_HINT_LOW_POWER, other]).2
          = [("sys.perf.profile", "0"), ("sys.perf.profile", "1")]) := by
  have ev : ∀ l : List Int, (execHints H initState l).2
      = (hintWritesSpec H.POWER_HINT_LOW_POWER 0 l).map
          (fun kv => Event.property_set kv.1 kv.2) :=
    fun l => execHints_events H l initState (consistent_init H h0)
  refine ⟨?_, ev hs, ?_⟩
  · rw [ev hs, propWrites_map]
  · intro other ho
    rw [ev, propWrites_map]
    simp [hintWritesSpec, h0, h0.symm, ho]

theorem hint_sequence_writes_witness :
    propWrites (execHints androidHeaders initState [5, 5, 7, 5]).2
      = hintWritesSpec androidHeaders.POWER_HINT_LOW_POWER 0 [5, 5, 7, 5]
    ∧ (execHints androidHeaders initState [5, 5, 7, 5]).2
        = (hintWritesSpec androidHeaders.POWER_HINT_LOW_POWER 0 [5, 5, 7, 5]).map
            (fun kv => Event.property_set kv.1 kv.2)
    ∧ (∀ other : Int, other ≠ androidHeaders.POWER_HINT_LOW_POWER →
        propWrites (execHints androidHeaders initState
            [androidHeaders.POWER_HINT_LOW_POWER, androidHeaders.POWER_HINT_LOW_POWER,
              other]).2
          = [("sys.perf.profile", "0"), ("sys.perf.profile", "1")]) :=
  hint_sequence_writes androidHeaders (by decide) [5, 5, 7, 5]

/-- C3: in any state, `power_hint` with a hint equal to the last hint emits no
event (so no property write) and leaves the state unchanged; hence in any
state and for any hint h, two consecutive calls `power_hint(h)` end in the
same state and emit the same events and property writes as a single call. -/
theorem power_hint_repeat (H : Headers) (st : HalState) (h : Int) :
    (h = st.current_power_hint → power_hint H st h = (st, []))
    ∧ exec H st [Call.powerHint h, Call.powerHint h] = exec H st [Call.powerHint h]
    ∧ propWrites (exec H st [Call.powerHint h, Call.powerHint h]).2
        = propWrites (exec H st [Call.powerHint h]).2 := by
  have e1 : exec H st [Call.powerHint h, Call.powerHint h] = exec H st [Call.powerHint h] := by
    have hr := power_hint_records H st h
    have hsame := power_hint_same H (power_hint H st h).1
    rw [hr] at hsame
    simp [exec, step, hsame]
  refine ⟨?_, e1, by rw [e1]⟩
  intro e
  subst e
  exact power_hint_same H st

theorem power_hint_repeat_witness :
    ((5 : Int) = (⟨0, 5⟩ : HalState).current_power_hint →
        power_hint androidHeaders ⟨0, 5⟩ 5 = (⟨0, 5⟩, []))
    ∧ exec androidHeaders ⟨0, 5⟩ [Call.powerHint 5, Call.powerHint 5]
        = exec androidHeaders ⟨0, 5⟩ [Call.powerHint 5]
    ∧ propWrites (exec androidHeaders ⟨0, 5⟩ [Call.powerHint 5, Call.powerHint 5]).2
        = propWrites (exec androidHeaders ⟨0, 5⟩ [Call.powerHint 5]).2 :=
  power_hint_repeat androidHeaders ⟨0, 5⟩ 5

/-- C4 (as stated, refuted): at the load-time state, with LowPower = 5, two
consecutive calls `power_hint(7)` produce no property write at all, not one;
the same holds for two calls `power_hint(5)` made after a first
`power_hint(5)`. -/
theorem double_hint_not_always_one_write :
    propWrites (exec androidHeaders (exec androidHeaders initState []).1
        [Call.powerHint 7, Call.powerHint 7]).2 = []
    ∧ (propWrites (exec androidHeaders (exec androidHeaders initState []).1
        [Call.powerHint 7, Call.powerHint 7]).2).length ≠ 1
    ∧ (propWrites (exec androidHeaders (exec androidHeaders initState [Call.powerHint 5]).1
        [Call.powerHint 5, Call.powerHint 5]).2).length ≠ 1 := by
  decide

/-- C4 (amended): in every state reachable from the load-time state by calls
to the entry points, with the LowPower constant different from 0, the second
of two consecutive calls `power_hint(h)` emits nothing, and the two calls
together produce exactly one property write when exactly one of h and the
state's last hint is LowPower, and none otherwise. -/
theorem double_hint_writes (H : Headers) (h0 : H.POWER_HINT_LOW_POWER ≠ 0)
    (cs : List Call) (h : Int) :
    (power_hint H (power_hint H (exec H initState cs).1 h).1 h).2 = []
    ∧ (propWrites (exec H (exec H initState cs).1
          [Call.powerHint h, Call.powerHint h]).2).length
        = if (h = H.POWER_HINT_LOW_POWER
              ↔ (exec H initState cs).1.current_power_hint = H.POWER_HINT_LOW_POWER)
          then 0 else 1 := by
  have hc : Consistent H (exec H initState cs).1 :=
    exec_consistent H cs initState (consistent_init H h0)
  generalize (exec H initState cs).1 = st at hc
  have hr := power_hint_records H st h
  have hsame := power_hint_same H (power_hint H st h).1
  rw [hr] at hsame
  have hev := (power_hint_consistent H st h hc).2
  refine ⟨by rw [hsame], ?_⟩
  simp only [exec, step, hsame, List.append_nil, hev]
  by_cases e1 : h = H.POWER_HINT_LOW_POWER <;>
    by_cases e2 : st.current_power_hint = H.POWER_HINT_LOW_POWER <;>
    simp [e1, e2, propWrites]

theorem double_hint_writes_witness :
    (power_hint androidHeaders (power_hint androidHeaders
        (exec androidHeaders initState [Call.init, Call.powerHint 7]).1 5).1 5).2 = []
    ∧ (propWrites (exec androidHeaders
          (exec androidHeaders initState [Call.init, Call.powerHint 7]).1
          [Call.powerHint 5, Call.powerHint 5]).2).length
        = if ((5 : Int) = androidHeaders.POWER_HINT_LOW_POWER
              ↔ (exec androidHeaders initState
                  [Call.init, Call.powerHint 7]).1.current_power_hint
                  = androidHeaders.POWER_HINT_LOW_POWER)
          then 0 else 1 :=
  double_hint_writes androidHeaders (by decide) [Call.init, Call.powerHint 7] 5

/-- C8: for every finite sequence of calls to `power_init`,
`power_set_interactive`, `power_hint` and `set_feature`, with any arguments
and any system-call outcomes, starting from the load-time state, the current
profile afterwards is not HighPerformance, the pair ("sys.perf.profile", "2")
is not among the property writes, and no emitted event is a write of "2" to
any property. -/
theorem high_performance_unreachable (H : Headers) (cs : List Call) :
    (exec H initState cs).1.current_power_profile ≠ PROFILE_HIGH_PERFORMANCE
    ∧ ("sys.perf.profile", "2") ∉ propWrites (exec H initState cs).2
    ∧ (∀ e ∈ (exec H initState cs).2, ∀ k : String, e ≠ Event.property_set k "2") := by
  have hb := exec_bounded H cs initState (Or.inr rfl)
  refine ⟨?_, ?_, hb.2⟩
  · intro e
    rcases hb.1 with h1 | h1 <;> rw [e] at h1 <;> exact absurd h1 (by decide)
  · rw [mem_propWrites]
    intro hm
    exact hb.2 _ hm "sys.perf.profile" rfl

/-- C10 (the code at the failing input): when `open` succeeds with descriptor
3 and `write` fails with -1, `sysfs_write` returns -1 after the open, the
write and a log line, without any `close` of descriptor 3; `set_feature`
called for double-tap-to-wake emits the same events.  With a successful write
the close is there. -/
theorem sysfs_write_leaks_descriptor_on_write_failure :
    sysfs_write "/proc/touchpanel/double_tap_enable" "1" 3 (-1)
      = (-1, [Event.sys_open "/proc/touchpanel/double_tap_enable" 3,
              Event.sys_write 3 "1" (-1),
              Event.alog "Error writing to %s: %s"])
    ∧ Event.sys_close 3 ∉ (sysfs_write "/proc/touchpanel/double_tap_enable" "1" 3 (-1)).2
    ∧ Event.sys_close 3 ∉ (set_feature androidHeaders initState 1 1 3 (-1)).2
    ∧ sysfs_write "/proc/touchpanel/double_tap_enable" "1" 3 1
      = (0, [Event.sys_open "/proc/touchpanel/double_tap_enable" 3,
             Event.sys_write 3 "1" 1,
             Event.sys_close 3]) := by
  decide

/-- C7: let s be any value of a 32-bit `int`.  With a tap-to-wake path
configured, `set_feature` for the double-tap-to-wake feature emits exactly the
events of one `sysfs_write` to that path with the decimal rendering of s as
data (the string "1" for s = 1), and for any other feature emits nothing.
With no path configured it emits nothing for any feature.  In every case it
makes no property write and leaves the profile and last hint unchanged;
without a call to `sysfs_write` there is no file-system access. -/
theorem set_feature_spec (H : Headers) (st : HalState) (f s o w : Int)
    (h1 : -2 ^ 31 ≤ s) (h2 : s < 2 ^ 31) :
    (∀ node : String, H.TAP_TO_WAKE_NODE = some node →
        (f = H.POWER_FEATURE_DOUBLE_TAP_TO_WAKE →
          (set_feature H st f s o w).2 = (sysfs_write node (toString s) o w).2)
        ∧ (f ≠ H.POWER_FEATURE_DOUBLE_TAP_TO_WAKE →
          (set_feature H st f s o w).2 = []
          ∧ fsAccesses (set_feature H st f s o w).2 = []))
    ∧ (H.TAP_TO_WAKE_NODE = none →
        (set_feature H st f s o w).2 = []
        ∧ fsAccesses (set_feature H st f s o w).2 = [])
    ∧ propWrites (set_feature H st f s o w).2 = []
    ∧ (set_feature H st f s o w).1 = st
    ∧ snprintf_d 64 1 = "1" := by
  have hfit := snprintf_d_fits s h1 h2
  refine ⟨?_, ?_, ?_, set_feature_state H st f s o w, by decide⟩
  · intro node hn
    refine ⟨fun hf => ?_, fun hf => ?_⟩
    · simp [set_feature, hn, hf, hfit]
    · simp [set_feature, hn, hf, fsAccesses]
  · intro hn
    simp [set_feature, hn, fsAccesses]
  · have hev := set_feature_events H st f s o w
    generalize (set_feature H st f s o w).2 = es at hev
    induction es with
    | nil => rfl
    | cons e es ih =>
      have he := hev e (List.mem_cons_self e es)
      have ih2 := ih (fun x hx => hev x (List.mem_cons_of_mem e hx))
      cases e with
      | property_set k v => exact absurd rfl (he k v)
      | sys_open a b => simpa [propWrites] using ih2
      | sys_write a b c => simpa [propWrites] using ih2
      | sys_close a => simpa [propWrites] using ih2
      | alog a => simpa [propWrites] using ih2

theorem set_feature_spec_witness :
    (∀ node : String, androidHeaders.TAP_TO_WAKE_NODE = some node →
        ((1 : Int) = androidHeaders.POWER_FEATURE_DOUBLE_TAP_TO_WAKE →
          (set_feature androidHeaders initState 1 1 3 1).2
            = (sysfs_write node (toString (1 : Int)) 3 1).2)
        ∧ ((1 : Int) ≠ androidHeaders.POWER_FEATURE_DOUBLE_TAP_TO_WAKE →
          (set_feature androidHeaders initState 1 1 3 1).2 = []
          ∧ fsAccesses (set_feature androidHeaders initState 1 1 3 1).2 = []))
    ∧ (androidHeaders.TAP_TO_WAKE_NODE = none →
        (set_feature androidHeaders initState 1 1 3 1).2 = []
        ∧ fsAccesses (set_feature androidHeaders initState 1 1 3 1).2 = [])
    ∧ propWrites (set_feature androidHeaders initState 1 1 3 1).2 = []
    ∧ (set_feature androidHeaders initState 1 1 3 1).1 = initState
    ∧ snprintf_d 64 1 = "1" :=
  set_feature_spec androidHeaders initState 1 1 3 1 (by decide) (by decide)

/-- C6: `power_open` returns -EINVAL exactly when the requested name differs
from `POWER_HARDWARE_MODULE_ID` (errno values being positive and distinct),
and then leaves the output slot as it was.  With a matching name and a failed
allocation it returns -ENOMEM and leaves the slot as it was.  With a matching
name and a successful allocation it returns 0 and the slot holds a record
whose four callbacks are `power_init`, `power_hint`, `power_set_interactive`,
`set_feature`, whose tag and two version tags are the module constants, and
whose every other member is zero. -/
theorem power_open_spec (H : Headers) (name : String) (callocSucceeds : Bool)
    (device : Option power_module_t)
    (hpos : 0 < H.EINVAL) (hdist : H.EINVAL ≠ H.ENOMEM) :
    ((power_open H name callocSucceeds device).1 = -H.EINVAL
        ↔ name ≠ H.POWER_HARDWARE_MODULE_ID)
    ∧ (name ≠ H.POWER_HARDWARE_MODULE_ID →
        (power_open H name callocSucceeds device).2.1 = device)
    ∧ (name = H.POWER_HARDWARE_MODULE_ID → callocSucceeds = false →
        (power_open H name callocSucceeds device).1 = -H.ENOMEM
        ∧ (power_open H name callocSucceeds device).2.1 = device)
    ∧ (name = H.POWER_HARDWARE_MODULE_ID → callocSucceeds = true →
        (power_open H name callocSucceeds device).1 = 0
        ∧ (power_open H name callocSucceeds device).2.1 = some
            { common :=
                { tag := H.HARDWARE_MODULE_TAG,
                  module_api_version := H.POWER_MODULE_API_VERSION_0_3,
                  hal_api_version := H.HARDWARE_HAL_API_VERSION,
                  id := none, name := none, author := none,
                  methods := MethodsPtr.null, dso := 0,
                  reserved := List.replicate 25 0 },
              init := Callback.power_init,
              setInteractive := Callback.power_set_interactive,
              powerHint := Callback.power_hint,
              setFeature := Callback.set_feature }) := by
  by_cases hn : name = H.POWER_HARDWARE_MODULE_ID
  · cases callocSucceeds
    · have h3 : ¬ (-H.ENOMEM = -H.EINVAL) := fun e => hdist (by omega)
      simp [power_open, strcmp, hn, calloc_power_module_t, h3]
    · have h3 : ¬ ((0 : Int) = -H.EINVAL) := fun e => by omega
      simp [power_open, strcmp, hn, calloc_power_module_t, zeroed_power_module_t, h3]
  · have hs : strcmp name H.POWER_HARDWARE_MODULE_ID ≠ 0 := by
      unfold strcmp
      rw [if_neg hn]
      split_ifs <;> decide
    simp [power_open, hs, hn]

theorem power_open_spec_witness :
    ((power_open androidHeaders "power" true none).1 = -androidHeaders.EINVAL
        ↔ "power" ≠ androidHeaders.POWER_HARDWARE_MODULE_ID)
    ∧ ("power" ≠ androidHeaders.POWER_HARDWARE_MODULE_ID →
        (power_open androidHeaders "power" true none).2.1 = none)
    ∧ ("power" = androidHeaders.POWER_HARDWARE_MODULE_ID → true = false →
        (power_open androidHeaders "power" true none).1 = -androidHeaders.ENOMEM
        ∧ (power_open androidHeaders "power" true none).2.1 = none)
    ∧ ("power" = androidHeaders.POWER_HARDWARE_MODULE_ID → true = true →
        (power_open androidHeaders "power" true none).1 = 0
        ∧ (power_open androidHeaders "power" true none).2.1 = some
            { common :=
                { tag := androidHeaders.HARDWARE_MODULE_TAG,
                  module_api_version := androidHeaders.POWER_MODULE_API_VERSION_0_3,
                  hal_api_version := androidHeaders.HARDWARE_HAL_API_VERSION,
                  id := none, name := none, author := none,
                  methods := MethodsPtr.null, dso := 0,
                  reserved := List.replicate 25 0 },
              init := Callback.power_init,
              setInteractive := Callback.power_set_interactive,
              powerHint := Callback.power_hint,
              setFeature := Callback.set_feature }) :=
  power_open_spec androidHeaders "power" true none (by decide) (by decide)

end PowerHal
